import Mathlib

/-!
Verification development for the `dbgvis` telemetry data model
(`debug_visualizer.cc` / `debug_visualizer.h`).

The C++ code is shallowly embedded: each C++ class becomes a Lean structure
or inductive type, each member function a pure Lean function on that type
(mutation becomes state passing).  `float`/`double` payloads carry no
arithmetic in the verified code paths (they are stored, compared and
trimmed, never added), so they are modelled by `Rat`, whose equality is
exact, matching the source's `==` comparisons.  `std::map` keyed by
`std::string` is modelled by an association list with lookup/insert by key;
`std::vector` by `List` with `push_back` as append.
-/

namespace Dbgvis

/-- `ScalarValue = std::variant<int64_t, double, bool, std::string>`. -/
inductive ScalarValue where
  | int : Int → ScalarValue
  | float : Rat → ScalarValue
  | bool : Bool → ScalarValue
  | text : String → ScalarValue
deriving DecidableEq, Repr

/-- `struct GraphConfig` with its default member initializers. -/
structure GraphConfig where
  max_samples : Nat := 240
  auto_scale : Bool := true
  manual_min : Rat := 0
  manual_max : Rat := 1
deriving DecidableEq, Repr

/-- `DebugVisualizer::Graph` data members: `config_`, `samples_`,
`latest_sample_`.  The default constructor zero-initializes
`latest_sample_` to `0.0f` and leaves `samples_` empty. -/
structure Graph where
  config : GraphConfig := {}
  samples : List Rat := []
  latest_sample : Rat := 0
deriving DecidableEq, Repr

/-- `Graph(GraphConfig config)` constructor. -/
def Graph.ofConfig (cfg : GraphConfig) : Graph :=
  { config := cfg, samples := [], latest_sample := 0 }

/-- `Graph::trim_to_config`: `max_samples == 0` clears the buffer;
otherwise, when `samples_.size() > max_samples`, erase the first
`size - max_samples` elements from the front. -/
def Graph.trim_to_config (g : Graph) : Graph :=
  if g.config.max_samples = 0 then
    { g with samples := [] }
  else if g.samples.length > g.config.max_samples then
    { g with samples := g.samples.drop (g.samples.length - g.config.max_samples) }
  else
    g

/-- `Graph::push`: record `latest_sample_`, `push_back`, then trim. -/
def Graph.push (g : Graph) (sample : Rat) : Graph :=
  Graph.trim_to_config { g with latest_sample := sample, samples := g.samples ++ [sample] }

/-- `Graph::add_samples`: a `for` loop calling `push` on each element. -/
def Graph.add_samples (g : Graph) : List Rat → Graph
  | [] => g
  | s :: rest => (g.push s).add_samples rest

/-- `Graph::configure`: replace `config_`, then trim. -/
def Graph.configure (g : Graph) (cfg : GraphConfig) : Graph :=
  Graph.trim_to_config { g with config := cfg }

/-- `Graph::latest` accessor. -/
def Graph.latest (g : Graph) : Rat :=
  g.latest_sample

/-- Spec-side reading of `add_samples`: the fold of single `push` calls
over the sequence, in order. -/
def Graph.pushAll (g : Graph) (ss : List Rat) : Graph :=
  ss.foldl Graph.push g

/-- `struct StructureNode { label; optional<ScalarValue> value; children }`. -/
inductive StructureNode where
  | mk (label : String) (value : Option ScalarValue) (children : List StructureNode)

/-- Accessor for `StructureNode::label`. -/
def StructureNode.label : StructureNode → String
  | .mk l _ _ => l

/-- Accessor for `StructureNode::value`. -/
def StructureNode.value : StructureNode → Option ScalarValue
  | .mk _ v _ => v

/-- Accessor for `StructureNode::children`. -/
def StructureNode.children : StructureNode → List StructureNode
  | .mk _ _ c => c

/-- A `StructureBuilder` usage is a first-order program: `field(label, v)`
appends a leaf `{label, v, {}}`; `nested(label)` appends `{label, nullopt, {}}`
and hands out a builder over that node's (fresh) child list, whose own usage
is the nested command list. -/
inductive BuildCmd where
  | field (label : String) (v : ScalarValue)
  | nested (label : String) (cmds : List BuildCmd)

mutual

/-- Effect of one builder call on the backing node list (appended node). -/
def runBuildCmd : BuildCmd → StructureNode
  | .field label v => .mk label (some v) []
  | .nested label cmds => .mk label none (runBuildCmds cmds)

/-- Nodes appended to a fresh backing list by a builder program, in order. -/
def runBuildCmds : List BuildCmd → List StructureNode
  | [] => []
  | c :: cs => runBuildCmd c :: runBuildCmds cs

end

/-- Children produced by an optional builder callback on a fresh child
list: a null `std::function` produces nothing. -/
def runBuilderOpt : Option (List BuildCmd) → List StructureNode
  | none => []
  | some cmds => runBuildCmds cmds

/-- `struct StructureEntry { StructureNode root; bool has_content = false; }`. -/
structure StructureEntry where
  root : StructureNode
  has_content : Bool := false

/-! Association-list model of `std::map<std::string, T>`: lookup by key,
insert replacing an existing binding for the key. -/

/-- `map.find(k)` as an association-list lookup. -/
def mapFind (k : String) : List (String × α) → Option α
  | [] => none
  | e :: rest => if e.1 = k then some e.2 else mapFind k rest

/-- Upsert: replace the binding for `k` if present, else add one. -/
def mapInsert (k : String) (v : α) : List (String × α) → List (String × α)
  | [] => [(k, v)]
  | e :: rest =>
    if e.1 = k then (e.1, v) :: rest else e :: mapInsert k v rest

/-- Rewrite the first element satisfying `p` with `f` (a mutation through
the reference found by `std::find_if`). -/
def updateFirst (p : α → Bool) (f : α → α) : List α → List α
  | [] => []
  | x :: xs => if p x then f x :: xs else x :: updateFirst p f xs

/-- `erase` of the first element satisfying `p`; `none` when no element
matches (the `find_if == end()` branch). -/
def eraseFirst (p : α → Bool) : List α → Option (List α)
  | [] => none
  | x :: xs => if p x then some xs else (eraseFirst p xs).map (x :: ·)

/-- `DebugVisualizer::Tab` data members (`id_`, `title_`, and the three
keyed collections). -/
structure Tab where
  id : String
  title : String
  scalars : List (String × ScalarValue) := []
  graphs : List (String × Graph) := []
  structures : List (String × StructureEntry) := []

/-- `Tab::Tab(id, title)`: `title_` falls back to `id_` when empty. -/
def Tab.new (id title : String) : Tab :=
  { id := id, title := if title = "" then id else title }

/-- `Tab::set_title`: ignore an empty string. -/
def Tab.set_title (t : Tab) (title : String) : Tab :=
  if title = "" then t else { t with title := title }

/-- `Tab::update_value`: upsert into `scalars_`. -/
def Tab.update_value (t : Tab) (key : String) (v : ScalarValue) : Tab :=
  { t with scalars := mapInsert key v t.scalars }

/-- The `GraphConfig` field-wise `!=` comparison in `Tab::ensure_graph`. -/
def configDiffers (a b : GraphConfig) : Bool :=
  a.max_samples ≠ b.max_samples || a.auto_scale ≠ b.auto_scale ||
    a.manual_min ≠ b.manual_min || a.manual_max ≠ b.manual_max

/-- `Tab::ensure_graph`: `try_emplace(key, Graph(config))`; when the key was
already present, reconfigure the existing graph only if some config field
differs. -/
def Tab.ensure_graph (t : Tab) (key : String) (cfg : GraphConfig) : Tab :=
  match mapFind key t.graphs with
  | none => { t with graphs := mapInsert key (Graph.ofConfig cfg) t.graphs }
  | some g =>
    if configDiffers g.config cfg then
      { t with graphs := mapInsert key (g.configure cfg) t.graphs }
    else
      t

/-- `Tab::addGraph` forwards to `ensure_graph`. -/
def Tab.addGraph (t : Tab) (key : String) (cfg : GraphConfig) : Tab :=
  t.ensure_graph key cfg

/-- `Tab::GraphCollection::operator[]`: return the existing graph untouched,
or `try_emplace` a default-constructed `Graph()` when absent. -/
def Tab.graphBracket (t : Tab) (key : String) : Tab :=
  match mapFind key t.graphs with
  | none => { t with graphs := mapInsert key ({} : Graph) t.graphs }
  | some _ => t

/-- `Tab::push_graph_sample`: `ensure_graph` then `push` on the stored graph. -/
def Tab.push_graph_sample (t : Tab) (key : String) (sample : Rat) (cfg : GraphConfig) : Tab :=
  let t1 := t.ensure_graph key cfg
  { t1 with graphs := updateFirst (fun e => e.1 = key) (fun e => (e.1, e.2.push sample)) t1.graphs }

/-- `Tab::add_graph_samples`: `ensure_graph` then `add_samples` on the
stored graph. -/
def Tab.add_graph_samples (t : Tab) (key : String) (ss : List Rat) (cfg : GraphConfig) : Tab :=
  let t1 := t.ensure_graph key cfg
  { t1 with graphs := updateFirst (fun e => e.1 = key) (fun e => (e.1, e.2.add_samples ss)) t1.graphs }

/-- `Tab::update_structure`: `structures_[key]` default-constructs an entry
when absent; the root's label is set to the key, its value reset, its
children cleared; a null callback (`none`) is skipped; `has_content` records
whether the (fresh) child list ended up non-empty. -/
def Tab.update_structure (t : Tab) (key : String) (builder : Option (List BuildCmd)) : Tab :=
  let entry0 := (mapFind key t.structures).getD { root := .mk "" none [] }
  let root1 : StructureNode := .mk key none []
  let children :=
    match builder with
    | none => root1.children
    | some cmds => root1.children ++ runBuildCmds cmds
  let entry1 : StructureEntry :=
    { entry0 with root := .mk key none children, has_content := !children.isEmpty }
  { t with structures := mapInsert key entry1 t.structures }

/-- `Tab::get_scalar`. -/
def Tab.get_scalar (t : Tab) (key : String) : Option ScalarValue :=
  mapFind key t.scalars

/-- `Tab::get_graph_samples`: empty vector when the key is absent. -/
def Tab.get_graph_samples (t : Tab) (key : String) : List Rat :=
  match mapFind key t.graphs with
  | none => []
  | some g => g.samples

/-- `Tab::get_structure`: absent when the key is missing or the entry has
`has_content == false`. -/
def Tab.get_structure (t : Tab) (key : String) : Option StructureNode :=
  match mapFind key t.structures with
  | none => none
  | some e => if e.has_content then some e.root else none

/-- `Tab::clear`: empty all three maps, keep identity. -/
def Tab.clear (t : Tab) : Tab :=
  { t with scalars := [], graphs := [], structures := [] }

/-- `class DebugVisualizer` data members: `window_title_`, `window_flags_`,
`visible_`, `default_tab_id_`, the owned `tabs_` vector, and the
`window_tiles_` vector of `{id, visualizer}` entries (a recursive tree of
stores). -/
inductive DebugVisualizer where
  | mk (window_title : String) (window_flags : Int) (visible : Bool)
      (default_tab_id : String) (tabs : List Tab)
      (window_tiles : List (String × DebugVisualizer))

/-- Accessor for `window_title_`. -/
def DebugVisualizer.window_title : DebugVisualizer → String
  | .mk wt _ _ _ _ _ => wt

/-- Accessor for `visible_`. -/
def DebugVisualizer.is_visible : DebugVisualizer → Bool
  | .mk _ _ vis _ _ _ => vis

/-- Accessor for `default_tab_id_`. -/
def DebugVisualizer.default_tab_id : DebugVisualizer → String
  | .mk _ _ _ dt _ _ => dt

/-- Accessor for `tabs_`. -/
def DebugVisualizer.tabs : DebugVisualizer → List Tab
  | .mk _ _ _ _ ts _ => ts

/-- Accessor for `window_tiles_`. -/
def DebugVisualizer.window_tiles : DebugVisualizer → List (String × DebugVisualizer)
  | .mk _ _ _ _ _ tiles => tiles

/-- Replace the `tabs_` vector (the effect of a mutation through it). -/
def DebugVisualizer.withTabs : DebugVisualizer → List Tab → DebugVisualizer
  | .mk wt wf vis dt _ tiles, ts => .mk wt wf vis dt ts tiles

/-- Replace the `window_tiles_` vector. -/
def DebugVisualizer.withTiles :
    DebugVisualizer → List (String × DebugVisualizer) → DebugVisualizer
  | .mk wt wf vis dt ts _, tiles => .mk wt wf vis dt ts tiles

/-- `DebugVisualizer::set_window_title`. -/
def DebugVisualizer.set_window_title : DebugVisualizer → String → DebugVisualizer
  | .mk _ wf vis dt ts tiles, title => .mk title wf vis dt ts tiles

/-- `DebugVisualizer::set_visible`. -/
def DebugVisualizer.set_visible : DebugVisualizer → Bool → DebugVisualizer
  | .mk wt wf _ dt ts tiles, b => .mk wt wf b dt ts tiles

/-- `DebugVisualizer::find_tab_internal`: `find_if` on `tab->id() == id`. -/
def DebugVisualizer.find_tab_internal (v : DebugVisualizer) (id : String) : Option Tab :=
  v.tabs.find? (fun t => t.id = id)

/-- `DebugVisualizer::ensure_tab`: rename the existing tab when a non-empty
title is supplied, else append a fresh `Tab(id, title.empty() ? id : title)`. -/
def DebugVisualizer.ensure_tab (v : DebugVisualizer) (id title : String) : DebugVisualizer :=
  match v.find_tab_internal id with
  | some _ =>
    v.withTabs
      (updateFirst (fun t => t.id = id)
        (fun t => if title = "" then t else t.set_title title) v.tabs)
  | none => v.withTabs (v.tabs ++ [Tab.new id (if title = "" then id else title)])

/-- `DebugVisualizer::add_tab(id)` forwards to `add_tab(id, id)`, which
forwards to `ensure_tab`. -/
def DebugVisualizer.add_tab (v : DebugVisualizer) (id : String) : DebugVisualizer :=
  v.ensure_tab id id

/-- `DebugVisualizer::DebugVisualizer()`: member initializers plus
`add_tab(default_tab_id_)` with `default_tab_id_ = "overview"`. -/
def DebugVisualizer.init : DebugVisualizer :=
  (DebugVisualizer.mk "Debug Window" 0 true "overview" [] []).add_tab "overview"

/-- `DebugVisualizer::remove_tab`: refuse the default tab id, otherwise
erase the first id match, returning whether something was removed. -/
def DebugVisualizer.remove_tab (v : DebugVisualizer) (id : String) : DebugVisualizer × Bool :=
  if id = v.default_tab_id then (v, false)
  else
    match eraseFirst (fun t => t.id = id) v.tabs with
    | none => (v, false)
    | some ts => (v.withTabs ts, true)

/-- `DebugVisualizer::tab_ids`. -/
def DebugVisualizer.tab_ids (v : DebugVisualizer) : List String :=
  v.tabs.map Tab.id

/-- A mutation performed through the `Tab&` reference for id `id` (as
returned by `ensure_tab`/`add_tab`/`tabs[id]`/`default_tab`). -/
def DebugVisualizer.onTab (v : DebugVisualizer) (id : String) (f : Tab → Tab) : DebugVisualizer :=
  v.withTabs (updateFirst (fun t => t.id = id) f v.tabs)

/-- `DebugVisualizer::default_tab()` ensures the default tab exists
(`ensure_tab(default_tab_id_, {})`). -/
def DebugVisualizer.default_tab (v : DebugVisualizer) : DebugVisualizer :=
  v.ensure_tab v.default_tab_id ""

/-- `DebugVisualizer::find_window_tile`: `find_if` on `entry.id == id`. -/
def DebugVisualizer.find_window_tile (v : DebugVisualizer) (id : String) : Option DebugVisualizer :=
  mapFind id v.window_tiles

/-- `DebugVisualizer::window_tile(id, title)`: rename an existing tile when
a non-empty differing title is supplied; otherwise append a
default-constructed visualizer with the title (or id) applied and
visibility on. -/
def DebugVisualizer.window_tile (v : DebugVisualizer) (id title : String) : DebugVisualizer :=
  match v.find_window_tile id with
  | some existing =>
    if title ≠ "" ∧ existing.window_title ≠ title then
      v.withTiles
        (updateFirst (fun e => e.1 = id)
          (fun e => (e.1, e.2.set_window_title title)) v.window_tiles)
    else v
  | none =>
    let fresh :=
      (DebugVisualizer.init.set_window_title (if title = "" then id else title)).set_visible true
    v.withTiles (v.window_tiles ++ [(id, fresh)])

/-- `DebugVisualizer::remove_window_tile`: erase the first id match, no
default-tile restriction. -/
def DebugVisualizer.remove_window_tile (v : DebugVisualizer) (id : String) :
    DebugVisualizer × Bool :=
  match eraseFirst (fun e => e.1 = id) v.window_tiles with
  | none => (v, false)
  | some tiles => (v.withTiles tiles, true)

/-- `DebugVisualizer::window_tile_ids`. -/
def DebugVisualizer.window_tile_ids (v : DebugVisualizer) : List String :=
  v.window_tiles.map Prod.fst

mutual

/-- `DebugVisualizer::clear`: clear every tab's content, recurse into the
window tiles; no tab or tile is removed. -/
def DebugVisualizer.clear : DebugVisualizer → DebugVisualizer
  | .mk wt wf vis dt ts tiles => .mk wt wf vis dt (ts.map Tab.clear) (clearTiles tiles)

/-- The `for` loop over `window_tiles_` in `DebugVisualizer::clear`. -/
def clearTiles : List (String × DebugVisualizer) → List (String × DebugVisualizer)
  | [] => []
  | (id, c) :: rest => (id, c.clear) :: clearTiles rest

end

/-- One call through `Tab`'s public mutating interface (the operations a
holder of a `Tab&` can perform). -/
inductive TabOp where
  | setTitle (title : String)
  | updateValue (key : String) (v : ScalarValue)
  | ensureGraph (key : String) (cfg : GraphConfig)
  | graphBracket (key : String)
  | pushGraphSample (key : String) (s : Rat) (cfg : GraphConfig)
  | addGraphSamples (key : String) (ss : List Rat) (cfg : GraphConfig)
  | updateStructure (key : String) (b : Option (List BuildCmd))
  | clearTab

/-- Interpretation of a `TabOp` on a tab. -/
def Tab.applyTabOp (t : Tab) : TabOp → Tab
  | .setTitle title => t.set_title title
  | .updateValue key v => t.update_value key v
  | .ensureGraph key cfg => t.ensure_graph key cfg
  | .graphBracket key => t.graphBracket key
  | .pushGraphSample key s cfg => t.push_graph_sample key s cfg
  | .addGraphSamples key ss cfg => t.add_graph_samples key ss cfg
  | .updateStructure key b => t.update_structure key b
  | .clearTab => t.clear

/-- One call through `DebugVisualizer`'s public mutating interface.
`onTab id top` is a mutation through a previously obtained `Tab&` handle;
the store-level convenience calls (`update_value`, `push_graph_sample`,
`update_structure`, …) are `defaultTab` followed by such a mutation on the
default tab and are therefore covered by composing these operations. -/
inductive StoreOp where
  | ensureTab (id title : String)
  | removeTab (id : String)
  | clearAll
  | windowTile (id title : String)
  | removeWindowTile (id : String)
  | setWindowTitle (title : String)
  | setVisible (b : Bool)
  | defaultTab
  | onTab (id : String) (top : TabOp)

/-- Interpretation of a `StoreOp` on a store. -/
def DebugVisualizer.applyStoreOp (v : DebugVisualizer) : StoreOp → DebugVisualizer
  | .ensureTab id title => v.ensure_tab id title
  | .removeTab id => (v.remove_tab id).1
  | .clearAll => v.clear
  | .windowTile id title => v.window_tile id title
  | .removeWindowTile id => (v.remove_window_tile id).1
  | .setWindowTitle title => v.set_window_title title
  | .setVisible b => v.set_visible b
  | .defaultTab => v.default_tab
  | .onTab id top => v.onTab id (fun t => t.applyTabOp top)

/-- Store states reachable from construction by any sequence of public
operations. -/
inductive Reachable : DebugVisualizer → Prop where
  | init : Reachable DebugVisualizer.init
  | step {v : DebugVisualizer} (op : StoreOp) : Reachable v → Reachable (v.applyStoreOp op)

/-- The default-tab invariant: some tab in the sequence carries the
default tab id. -/
def hasDefaultTab (v : DebugVisualizer) : Prop :=
  ∃ t ∈ v.tabs, t.id = v.default_tab_id

/-! ## Helper lemmas about lists -/

theorem rtake_append_rtake {α : Type} (l xs : List α) (k : Nat) :
    (List.rtake l k ++ xs).rtake k = (l ++ xs).rtake k := by
  simp only [List.rtake_eq_reverse_take_reverse, List.reverse_append, List.reverse_reverse]
  rw [List.take_append_eq_append_take, List.take_append_eq_append_take, List.take_take]
  rw [Nat.min_eq_left (Nat.sub_le _ _)]

theorem rtake_of_length_le {α : Type} (l : List α) (k : Nat) (h : l.length ≤ k) :
    l.rtake k = l := by
  unfold List.rtake
  rw [Nat.sub_eq_zero_of_le h, List.drop_zero]

theorem length_rtake_le {α : Type} (l : List α) (k : Nat) : (l.rtake k).length ≤ k := by
  unfold List.rtake
  rw [List.length_drop]
  omega

theorem getLastD_eq_getLast {α : Type} (l : List α) (h : l ≠ []) (d : α) :
    l.getLastD d = l.getLast h := by
  induction l generalizing d with
  | nil => exact absurd rfl h
  | cons a l ih =>
    cases l with
    | nil => rfl
    | cons b m => simpa [List.getLastD_cons, List.getLast_cons] using ih (by simp) a

/-! ## Graph lemmas -/

theorem Graph.trim_config (g : Graph) : g.trim_to_config.config = g.config := by
  unfold Graph.trim_to_config
  split <;> try rfl
  split <;> rfl

theorem Graph.trim_latest (g : Graph) :
    g.trim_to_config.latest_sample = g.latest_sample := by
  unfold Graph.trim_to_config
  split <;> try rfl
  split <;> rfl

theorem Graph.trim_samples_eq (g : Graph) (h : g.config.max_samples ≠ 0) :
    g.trim_to_config.samples = g.samples.rtake g.config.max_samples := by
  unfold Graph.trim_to_config
  rw [if_neg h]
  split
  · rfl
  · exact (rtake_of_length_le _ _ (by omega)).symm

theorem Graph.push_config (g : Graph) (s : Rat) : (g.push s).config = g.config :=
  Graph.trim_config _

theorem Graph.push_latest (g : Graph) (s : Rat) : (g.push s).latest_sample = s :=
  Graph.trim_latest _

theorem Graph.push_samples (g : Graph) (s : Rat) (h : g.config.max_samples ≠ 0) :
    (g.push s).samples = (g.samples ++ [s]).rtake g.config.max_samples :=
  Graph.trim_samples_eq _ h

theorem Graph.add_samples_eq_pushAll (xs : List Rat) :
    ∀ g : Graph, g.add_samples xs = g.pushAll xs := by
  induction xs with
  | nil => intro g; rfl
  | cons s rest ih =>
    intro g
    show (g.push s).add_samples rest = (s :: rest).foldl Graph.push g
    rw [List.foldl_cons]
    exact ih (g.push s)

theorem Graph.add_samples_props {k : Nat} (hk : k ≠ 0) (xs : List Rat) :
    ∀ g : Graph, g.config.max_samples = k → g.samples.length ≤ k →
      (g.add_samples xs).samples = (g.samples ++ xs).rtake k ∧
      (g.add_samples xs).config = g.config ∧
      (g.add_samples xs).latest_sample = xs.getLastD g.latest_sample := by
  induction xs with
  | nil =>
    intro g hcfg hlen
    exact ⟨by rw [List.append_nil]; exact (rtake_of_length_le _ _ hlen).symm, rfl, rfl⟩
  | cons s rest ih =>
    intro g hcfg hlen
    have hcfg1 : (g.push s).config.max_samples = k := by rw [Graph.push_config]; exact hcfg
    have hs1 : (g.push s).samples = (g.samples ++ [s]).rtake k := by
      rw [Graph.push_samples g s (by rw [hcfg]; exact hk), hcfg]
    have hlen1 : (g.push s).samples.length ≤ k := by rw [hs1]; exact length_rtake_le _ _
    obtain ⟨h1, h2, h3⟩ := ih (g.push s) hcfg1 hlen1
    refine ⟨?_, ?_, ?_⟩
    · show ((g.push s).add_samples rest).samples = _
      rw [h1, hs1, rtake_append_rtake, List.append_assoc, List.singleton_append]
    · show ((g.push s).add_samples rest).config = _
      rw [h2, Graph.push_config]
    · show ((g.push s).add_samples rest).latest_sample = _
      rw [h3, Graph.push_latest, List.getLastD_cons]

theorem Graph.add_samples_zero (xs : List Rat) :
    ∀ g : Graph, g.config.max_samples = 0 →
      (g.add_samples xs).samples = (if xs = [] then g.samples else []) ∧
      (g.add_samples xs).config = g.config ∧
      (g.add_samples xs).latest_sample = xs.getLastD g.latest_sample := by
  induction xs with
  | nil => intro g hcfg; exact ⟨by simp [Graph.add_samples], rfl, rfl⟩
  | cons s rest ih =>
    intro g hcfg
    have hcfg1 : (g.push s).config.max_samples = 0 := by rw [Graph.push_config]; exact hcfg
    obtain ⟨h1, h2, h3⟩ := ih (g.push s) hcfg1
    have hpush : (g.push s).samples = [] := by
      show (Graph.trim_to_config _).samples = []
      unfold Graph.trim_to_config
      rw [if_pos hcfg]
    refine ⟨?_, ?_, ?_⟩
    · show ((g.push s).add_samples rest).samples = _
      rw [h1, if_neg (List.cons_ne_nil s rest)]
      split
      · exact hpush
      · rfl
    · show ((g.push s).add_samples rest).config = _
      rw [h2, Graph.push_config]
    · show ((g.push s).add_samples rest).latest_sample = _
      rw [h3, Graph.push_latest, List.getLastD_cons]

/-! ## Claim theorems -/

/-- Claim C1: starting from a freshly constructed graph with capacity
`cfg.max_samples = k`, pushing the samples of `xs` one by one leaves the
buffer holding exactly the last `min (xs.length) k` pushed samples in push
order (the suffix `xs.drop (xs.length - k)`), and `latest` equals the most
recently pushed sample; `k = 0` yields an always-empty buffer while
`latest` still tracks the last push, and an empty push sequence leaves the
zero-initialized `latest`. -/
theorem c1_rolling_buffer (cfg : GraphConfig) (xs : List Rat) :
    ((Graph.ofConfig cfg).pushAll xs).samples = xs.drop (xs.length - cfg.max_samples) ∧
    ((Graph.ofConfig cfg).pushAll xs).samples.length = min xs.length cfg.max_samples ∧
    ((Graph.ofConfig cfg).pushAll xs).latest = xs.getLastD 0 ∧
    ∀ h : xs ≠ [], ((Graph.ofConfig cfg).pushAll xs).latest = xs.getLast h := by
  rw [← Graph.add_samples_eq_pushAll]
  by_cases hk : cfg.max_samples = 0
  · obtain ⟨h1, _, h3⟩ := Graph.add_samples_zero xs (Graph.ofConfig cfg) hk
    have hlat : ((Graph.ofConfig cfg).add_samples xs).latest = xs.getLastD 0 := h3
    refine ⟨?_, ?_, hlat, fun h => hlat.trans (getLastD_eq_getLast xs h 0)⟩
    · rw [h1, hk, Nat.sub_zero, List.drop_length]
      split <;> rfl
    · rw [h1, hk, Nat.min_zero]
      split <;> rfl
  · obtain ⟨h1, _, h3⟩ := Graph.add_samples_props hk xs (Graph.ofConfig cfg) rfl (Nat.zero_le _)
    have h1' : ((Graph.ofConfig cfg).add_samples xs).samples =
        List.drop (xs.length - cfg.max_samples) xs := by
      rw [h1]
      simp [Graph.ofConfig, List.rtake]
    have hlat : ((Graph.ofConfig cfg).add_samples xs).latest = xs.getLastD 0 := h3
    refine ⟨h1', ?_, hlat, fun h => hlat.trans (getLastD_eq_getLast xs h 0)⟩
    rw [h1', List.length_drop]
    omega

/-- Witness for C1 at the repository's own test scenario: capacity 4,
pushes 60, 58, 59, 61, 62; the buffer is the last four samples and the
latest sample is 62. -/
theorem c1_rolling_buffer_witness :
    ([(60 : Rat), 58, 59, 61, 62] ≠ []) ∧
    ((Graph.ofConfig { max_samples := 4 }).pushAll [60, 58, 59, 61, 62]).samples =
      List.drop ([(60 : Rat), 58, 59, 61, 62].length - 4) [60, 58, 59, 61, 62] ∧
    ((Graph.ofConfig { max_samples := 4 }).pushAll [60, 58, 59, 61, 62]).latest =
      [(60 : Rat), 58, 59, 61, 62].getLast (by decide) :=
  ⟨by decide, (c1_rolling_buffer { max_samples := 4 } [60, 58, 59, 61, 62]).1,
    (c1_rolling_buffer { max_samples := 4 } [60, 58, 59, 61, 62]).2.2.2 (by decide)⟩

/-- Claim C2: `configure` replaces the configuration and immediately
re-trims: with `cfg.max_samples = 0` all samples are cleared; otherwise
only the oldest (front) samples are removed until the length is at most
`cfg.max_samples` (the kept samples are the suffix
`drop (length - max_samples)`, a suffix of the original, so relative order
is preserved), and `latest` is unchanged. -/
theorem c2_configure_retrims (g : Graph) (cfg : GraphConfig) :
    (g.configure cfg).config = cfg ∧
    (g.configure cfg).latest = g.latest ∧
    (g.configure cfg).samples <:+ g.samples ∧
    (cfg.max_samples = 0 → (g.configure cfg).samples = []) ∧
    (cfg.max_samples ≠ 0 →
      (g.configure cfg).samples = g.samples.drop (g.samples.length - cfg.max_samples) ∧
      (g.configure cfg).samples.length = min g.samples.length cfg.max_samples) := by
  have hdrop : cfg.max_samples ≠ 0 →
      (g.configure cfg).samples = g.samples.drop (g.samples.length - cfg.max_samples) :=
    fun hk => Graph.trim_samples_eq { g with config := cfg } hk
  have hzero : cfg.max_samples = 0 → (g.configure cfg).samples = [] := by
    intro hk
    show (Graph.trim_to_config { g with config := cfg }).samples = []
    unfold Graph.trim_to_config
    rw [if_pos hk]
  refine ⟨Graph.trim_config _, Graph.trim_latest _, ?_, hzero, ?_⟩
  · by_cases hk : cfg.max_samples = 0
    · rw [hzero hk]
      exact List.nil_suffix
    · rw [hdrop hk]
      exact List.drop_suffix _ _
  · intro hk
    refine ⟨hdrop hk, ?_⟩
    rw [hdrop hk, List.length_drop]
    omega

/-- Witness for C2: a graph holding `[1, 2, 3]` reconfigured to capacity 2
keeps the suffix `[2, 3]`; reconfigured to capacity 0 it is cleared. -/
theorem c2_configure_retrims_witness :
    ((Graph.mk {} [1, 2, 3] 3).configure { max_samples := 2 }).samples =
      List.drop ([(1 : Rat), 2, 3].length - 2) [1, 2, 3] ∧
    ((Graph.mk {} [1, 2, 3] 3).configure { max_samples := 0 }).samples = [] :=
  ⟨((c2_configure_retrims (Graph.mk {} [1, 2, 3] 3) { max_samples := 2 }).2.2.2.2
      (by decide)).1,
    (c2_configure_retrims (Graph.mk {} [1, 2, 3] 3) { max_samples := 0 }).2.2.2.1 rfl⟩

/-- Claim C8: `add_samples seq` (the source's `for` loop) leaves the graph
in exactly the state of folding single `push` calls over `seq` in order,
so samples, latest and config agree with the fold of single pushes. -/
theorem c8_add_samples_refines_push_fold (g : Graph) (seq : List Rat) :
    g.add_samples seq = seq.foldl Graph.push g ∧
    (g.add_samples seq).samples = (g.pushAll seq).samples ∧
    (g.add_samples seq).latest = (g.pushAll seq).latest ∧
    (g.add_samples seq).config = (g.pushAll seq).config := by
  have h := Graph.add_samples_eq_pushAll seq g
  exact ⟨h, by rw [h], by rw [h], by rw [h]⟩

/-! ## Association-list lemmas -/

theorem mapFind_mapInsert_self {α : Type} (k : String) (v : α) (m : List (String × α)) :
    mapFind k (mapInsert k v m) = some v := by
  induction m with
  | nil => simp [mapInsert, mapFind]
  | cons e rest ih =>
    by_cases h : e.1 = k
    · simp [mapInsert, mapFind, h]
    · simp [mapInsert, mapFind, h, ih]

theorem mapFind_mapInsert_other {α : Type} (k k' : String) (v : α) (m : List (String × α))
    (h : k' ≠ k) : mapFind k' (mapInsert k v m) = mapFind k' m := by
  induction m with
  | nil => simp [mapInsert, mapFind, Ne.symm h]
  | cons e rest ih =>
    by_cases he : e.1 = k
    · simp [mapInsert, mapFind, he, Ne.symm h]
    · simp only [mapInsert, if_neg he]
      by_cases he' : e.1 = k' <;> simp [mapFind, he', ih]

theorem configDiffers_iff (a b : GraphConfig) : configDiffers a b = true ↔ a ≠ b := by
  cases a with
  | mk a1 a2 a3 a4 =>
    cases b with
    | mk b1 b2 b3 b4 =>
      simp only [configDiffers, Bool.or_eq_true, decide_eq_true_eq, ne_eq,
        GraphConfig.mk.injEq, not_and]
      by_cases h1 : a1 = b1 <;> by_cases h2 : a2 = b2 <;>
        by_cases h3 : a3 = b3 <;> by_cases h4 : a4 = b4 <;> simp_all

/-- Claim C3: `ensure_graph key cfg` (also behind `addGraph`, `Graph.add`,
`push_graph_sample`, `add_graph_samples`) creates a fresh graph with config
`cfg` when the key is absent; when a graph exists it is reconfigured in
place via `configure` — samples retained and re-trimmed — exactly when the
requested config differs from the stored one in at least one of
`max_samples`, `auto_scale`, `manual_min`, `manual_max` (exact equality on
all fields), and otherwise the tab is left completely unchanged; no other
key and no other tab field is touched. -/
theorem c3_ensure_graph_merge (t : Tab) (key : String) (cfg : GraphConfig) :
    t.addGraph key cfg = t.ensure_graph key cfg ∧
    (mapFind key t.graphs = none →
      mapFind key (t.ensure_graph key cfg).graphs = some (Graph.ofConfig cfg)) ∧
    (∀ g, mapFind key t.graphs = some g →
      (configDiffers g.config cfg = true ↔ g.config ≠ cfg) ∧
      (g.config ≠ cfg →
        mapFind key (t.ensure_graph key cfg).graphs = some (g.configure cfg)) ∧
      (g.config = cfg → t.ensure_graph key cfg = t)) ∧
    (∀ k', k' ≠ key → mapFind k' (t.ensure_graph key cfg).graphs = mapFind k' t.graphs) ∧
    (t.ensure_graph key cfg).id = t.id ∧
    (t.ensure_graph key cfg).title = t.title ∧
    (t.ensure_graph key cfg).scalars = t.scalars ∧
    (t.ensure_graph key cfg).structures = t.structures := by
  refine ⟨rfl, ?_, ?_, ?_, ?_, ?_, ?_, ?_⟩
  · intro h
    simp [Tab.ensure_graph, h, mapFind_mapInsert_self]
  · intro g hg
    refine ⟨configDiffers_iff g.config cfg, ?_, ?_⟩
    · intro hne
      have hd : configDiffers g.config cfg = true := (configDiffers_iff g.config cfg).mpr hne
      simp [Tab.ensure_graph, hg, hd, mapFind_mapInsert_self]
    · intro heq
      have hd : configDiffers g.config cfg = false := by
        by_contra hc
        exact ((configDiffers_iff g.config cfg).mp (by simpa using hc)) heq
      simp [Tab.ensure_graph, hg, hd]
  · intro k' hk'
    unfold Tab.ensure_graph
    cases hg : mapFind key t.graphs with
    | none => simpa using mapFind_mapInsert_other key k' _ t.graphs hk'
    | some g =>
      by_cases hd : configDiffers g.config cfg <;>
        simp [hd, mapFind_mapInsert_other key k' _ t.graphs hk']
  all_goals
    unfold Tab.ensure_graph
    cases hg : mapFind key t.graphs with
    | none => rfl
    | some g => by_cases hd : configDiffers g.config cfg <;> simp [hd]

/-- Witness for C3: a tab storing a graph of capacity 4 with samples
`[1, 2, 3]`; `ensure_graph` with capacity 2 (which differs) reconfigures it
in place, keeping the trimmed samples. -/
theorem c3_ensure_graph_merge_witness :
    (Graph.mk { max_samples := 4 } [1, 2, 3] 3).config ≠ ({ max_samples := 2 } : GraphConfig) ∧
    mapFind "fps"
        ((Tab.mk "m" "m" [] [("fps", Graph.mk { max_samples := 4 } [1, 2, 3] 3)]
            []).ensure_graph "fps" { max_samples := 2 }).graphs =
      some ((Graph.mk { max_samples := 4 } [1, 2, 3] 3).configure { max_samples := 2 }) :=
  ⟨by decide,
    ((c3_ensure_graph_merge
          (Tab.mk "m" "m" [] [("fps", Graph.mk { max_samples := 4 } [1, 2, 3] 3)] [])
          "fps" { max_samples := 2 }).2.2.1
        (Graph.mk { max_samples := 4 } [1, 2, 3] 3) rfl).2.1 (by decide)⟩

theorem update_structure_stored (t : Tab) (key : String) (b : Option (List BuildCmd)) :
    mapFind key (t.update_structure key b).structures =
      some { root := .mk key none (runBuilderOpt b),
             has_content := !(runBuilderOpt b).isEmpty } := by
  cases b <;>
    simp [Tab.update_structure, runBuilderOpt, StructureNode.children, mapFind_mapInsert_self]

/-- Claim C4: `update_structure key builder` replaces the stored tree
wholesale — the stored entry is fully determined by the key and the
builder's output, independent of any prior entry — and records in
`has_content` whether any children were produced; two calls with builders
producing identical field sequences therefore yield equal stored trees, an
empty (or null) builder yields `has_content = false`, and `get_structure`
reports absence exactly when the entry is missing or `has_content = false`
even though the entry object still exists after an empty rebuild. -/
theorem c4_update_structure_wholesale (t : Tab) (key : String) (b : Option (List BuildCmd)) :
    mapFind key (t.update_structure key b).structures =
      some { root := .mk key none (runBuilderOpt b),
             has_content := !(runBuilderOpt b).isEmpty } ∧
    (∀ t' : Tab,
      mapFind key (t.update_structure key b).structures =
        mapFind key (t'.update_structure key b).structures ∧
      (t.update_structure key b).get_structure key =
        (t'.update_structure key b).get_structure key) ∧
    ((b = none ∨ b = some []) →
      (mapFind key (t.update_structure key b).structures).map StructureEntry.has_content =
        some false ∧
      (t.update_structure key b).get_structure key = none ∧
      mapFind key (t.update_structure key b).structures ≠ none) ∧
    (∀ (u : Tab) (k' : String),
      u.get_structure k' = none ↔
        (mapFind k' u.structures = none ∨
          (mapFind k' u.structures).map StructureEntry.has_content = some false)) := by
  have hstored := update_structure_stored t key b
  refine ⟨hstored, ?_, ?_, ?_⟩
  · intro t'
    have hstored' := update_structure_stored t' key b
    refine ⟨hstored.trans hstored'.symm, ?_⟩
    simp [Tab.get_structure, hstored, hstored']
  · intro hb
    have hempty : runBuilderOpt b = [] := by
      rcases hb with h | h <;> subst h <;> rfl
    rw [hempty] at hstored
    refine ⟨?_, ?_, ?_⟩
    · rw [hstored]; rfl
    · simp [Tab.get_structure, hstored]
    · rw [hstored]; exact Option.some_ne_none _
  · intro u k'
    unfold Tab.get_structure
    cases h : mapFind k' u.structures with
    | none => simp
    | some e => cases he : e.has_content <;> simp [he]

/-- Witness for C4: rebuilding structure `"player"` with an empty builder
leaves `get_structure` reporting absence. -/
theorem c4_update_structure_wholesale_witness :
    ((some [] : Option (List BuildCmd)) = none ∨
      (some [] : Option (List BuildCmd)) = some []) ∧
    ((Tab.new "metrics" "").update_structure "player" (some [])).get_structure "player" =
      none :=
  ⟨Or.inr rfl,
    ((c4_update_structure_wholesale (Tab.new "metrics" "") "player" (some [])).2.2.1
        (Or.inr rfl)).2.1⟩

/-- Claim C10 (implicit): the two graph access paths differ on an existing
graph — `GraphCollection::operator[]` returns an existing graph completely
unchanged, while `ensure_graph` with the default `GraphConfig` reconfigures
an existing graph whose stored config differs from the defaults; only for
an absent key do both create the same fresh default graph. -/
theorem c10_bracket_vs_ensure_graph (t : Tab) (key : String) :
    (∀ g, mapFind key t.graphs = some g → t.graphBracket key = t) ∧
    (∀ g, mapFind key t.graphs = some g → g.config ≠ ({} : GraphConfig) →
      mapFind key (t.ensure_graph key {}).graphs = some (g.configure {}) ∧
      (g.configure {}).config = ({} : GraphConfig)) ∧
    (mapFind key t.graphs = none →
      t.graphBracket key = t.ensure_graph key {} ∧
      mapFind key (t.graphBracket key).graphs = some ({} : Graph)) := by
  refine ⟨?_, ?_, ?_⟩
  · intro g hg
    simp [Tab.graphBracket, hg]
  · intro g hg hne
    have hd : configDiffers g.config {} = true := (configDiffers_iff g.config {}).mpr hne
    exact ⟨by simp [Tab.ensure_graph, hg, hd, mapFind_mapInsert_self], Graph.trim_config _⟩
  · intro h
    constructor
    · simp [Tab.graphBracket, Tab.ensure_graph, h]
      rfl
    · simp [Tab.graphBracket, h, mapFind_mapInsert_self]

/-- Witness for C10: a tab storing graph `"fps"` with capacity 2;
`operator[]` leaves the tab unchanged while `ensure_graph` with the default
config rewrites the stored config to the defaults. -/
theorem c10_bracket_vs_ensure_graph_witness :
    (Tab.mk "m" "m" [] [("fps", Graph.mk { max_samples := 2 } [1, 2] 2)] []).graphBracket
        "fps" =
      Tab.mk "m" "m" [] [("fps", Graph.mk { max_samples := 2 } [1, 2] 2)] [] ∧
    mapFind "fps"
        ((Tab.mk "m" "m" [] [("fps", Graph.mk { max_samples := 2 } [1, 2] 2)]
            []).ensure_graph "fps" {}).graphs =
      some ((Graph.mk { max_samples := 2 } [1, 2] 2).configure {}) :=
  ⟨(c10_bracket_vs_ensure_graph
        (Tab.mk "m" "m" [] [("fps", Graph.mk { max_samples := 2 } [1, 2] 2)] []) "fps").1
      (Graph.mk { max_samples := 2 } [1, 2] 2) rfl,
    ((c10_bracket_vs_ensure_graph
          (Tab.mk "m" "m" [] [("fps", Graph.mk { max_samples := 2 } [1, 2] 2)] []) "fps").2.1
        (Graph.mk { max_samples := 2 } [1, 2] 2) rfl (by decide)).1⟩

/-! ## Lemmas about `updateFirst`, `eraseFirst` and `find?` -/

theorem length_updateFirst {α : Type} (p : α → Bool) (f : α → α) (l : List α) :
    (updateFirst p f l).length = l.length := by
  induction l with
  | nil => rfl
  | cons x xs ih =>
    unfold updateFirst
    by_cases h : p x <;> simp [h, ih]

theorem updateFirst_id {α : Type} (p : α → Bool) (l : List α) :
    updateFirst p (fun x => x) l = l := by
  induction l with
  | nil => rfl
  | cons x xs ih =>
    unfold updateFirst
    by_cases h : p x <;> simp [h, ih]

theorem updateFirst_eq_self {α : Type} (p : α → Bool) (f : α → α) (l : List α)
    (h : ∀ x, f x = x) : updateFirst p f l = l := by
  induction l with
  | nil => rfl
  | cons x xs ih =>
    unfold updateFirst
    by_cases hx : p x <;> simp [hx, h, ih]

theorem find?_updateFirst {α : Type} (p : α → Bool) (f : α → α) (l : List α)
    (hp : ∀ x, p (f x) = p x) :
    (updateFirst p f l).find? p = (l.find? p).map f := by
  induction l with
  | nil => rfl
  | cons x xs ih =>
    by_cases h : p x
    · simp [updateFirst, h, List.find?_cons, hp]
    · simp [updateFirst, h, List.find?_cons, ih]

theorem find?_append_of_none {α : Type} (p : α → Bool) (l1 l2 : List α)
    (h : l1.find? p = none) : (l1 ++ l2).find? p = l2.find? p := by
  induction l1 with
  | nil => rfl
  | cons x xs ih =>
    rw [List.find?_cons] at h
    by_cases hx : p x
    · simp [hx] at h
    · simp only [hx] at h
      simp [List.find?_cons, hx, ih h]

theorem exists_mem_updateFirst {α : Type} (p : α → Bool) (f : α → α) (l : List α)
    (P : α → Prop) (hf : ∀ x, P x → P (f x)) (h : ∃ x ∈ l, P x) :
    ∃ x ∈ updateFirst p f l, P x := by
  induction l with
  | nil => simp at h
  | cons x xs ih =>
    obtain ⟨y, hy, hPy⟩ := h
    unfold updateFirst
    by_cases hx : p x
    · rw [if_pos hx]
      rcases List.mem_cons.mp hy with h1 | h1
      · exact ⟨f x, List.mem_cons_self _ _, h1 ▸ hf y hPy⟩
      · exact ⟨y, List.mem_cons_of_mem _ h1, hPy⟩
    · rw [if_neg hx]
      rcases List.mem_cons.mp hy with h1 | h1
      · exact ⟨y, h1 ▸ List.mem_cons_self _ _, hPy⟩
      · obtain ⟨z, hz, hPz⟩ := ih ⟨y, h1, hPy⟩
        exact ⟨z, List.mem_cons_of_mem _ hz, hPz⟩

theorem eraseFirst_eq_none {α : Type} (p : α → Bool) (l : List α)
    (h : ∀ x ∈ l, p x = false) : eraseFirst p l = none := by
  induction l with
  | nil => rfl
  | cons x xs ih =>
    unfold eraseFirst
    rw [if_neg (by simp [h x (List.mem_cons_self _ _)]),
      ih (fun y hy => h y (List.mem_cons_of_mem _ hy))]
    rfl

theorem eraseFirst_decomp {α : Type} (p : α → Bool) (l1 l2 : List α) (x : α)
    (hx : p x = true) (hl1 : ∀ y ∈ l1, p y = false) :
    eraseFirst p (l1 ++ x :: l2) = some (l1 ++ l2) := by
  induction l1 with
  | nil => simp [eraseFirst, hx]
  | cons y ys ih =>
    rw [List.cons_append]
    simp only [eraseFirst]
    rw [if_neg (by simp [hl1 y (List.mem_cons_self _ _)]),
      ih (fun z hz => hl1 z (List.mem_cons_of_mem _ hz))]
    rfl

theorem mem_of_eraseFirst {α : Type} (p : α → Bool) (l l' : List α) (x : α)
    (h : eraseFirst p l = some l') (hx : x ∈ l) (hpx : p x = false) : x ∈ l' := by
  induction l generalizing l' with
  | nil => simp [eraseFirst] at h
  | cons y ys ih =>
    unfold eraseFirst at h
    by_cases hy : p y
    · rw [if_pos hy] at h
      cases h
      rcases List.mem_cons.mp hx with h1 | h1
      · rw [h1] at hpx; rw [hpx] at hy; cases hy
      · exact h1
    · rw [if_neg hy] at h
      cases he : eraseFirst p ys with
      | none => rw [he] at h; cases h
      | some zs =>
        rw [he] at h
        cases h
        rcases List.mem_cons.mp hx with h1 | h1
        · exact h1 ▸ List.mem_cons_self _ _
        · exact List.mem_cons_of_mem _ (ih zs he h1)

theorem mapFind_append_of_none {α : Type} (k : String) (m1 m2 : List (String × α))
    (h : mapFind k m1 = none) : mapFind k (m1 ++ m2) = mapFind k m2 := by
  induction m1 with
  | nil => rfl
  | cons e rest ih =>
    by_cases he : e.1 = k
    · exfalso
      simp [mapFind, he] at h
    · have h' : mapFind k rest = none := by simpa [mapFind, he] using h
      rw [List.cons_append]
      simpa [mapFind, he] using ih h'

theorem mapFind_updateFirst {α : Type} (k : String) (f : α → α) (m : List (String × α)) :
    mapFind k (updateFirst (fun e => e.1 = k) (fun e => (e.1, f e.2)) m) =
      (mapFind k m).map f := by
  induction m with
  | nil => rfl
  | cons e rest ih =>
    by_cases he : e.1 = k
    · simp [updateFirst, mapFind, he]
    · simp [updateFirst, mapFind, he, ih]

/-! ## Accessor lemmas for the store -/

theorem withTabs_tabs (v : DebugVisualizer) (ts : List Tab) : (v.withTabs ts).tabs = ts := by
  cases v; rfl

theorem withTabs_default_tab_id (v : DebugVisualizer) (ts : List Tab) :
    (v.withTabs ts).default_tab_id = v.default_tab_id := by
  cases v; rfl

theorem withTabs_window_tiles (v : DebugVisualizer) (ts : List Tab) :
    (v.withTabs ts).window_tiles = v.window_tiles := by
  cases v; rfl

theorem withTabs_window_title (v : DebugVisualizer) (ts : List Tab) :
    (v.withTabs ts).window_title = v.window_title := by
  cases v; rfl

theorem withTabs_self (v : DebugVisualizer) : v.withTabs v.tabs = v := by
  cases v; rfl

theorem withTiles_tabs (v : DebugVisualizer) (ts : List (String × DebugVisualizer)) :
    (v.withTiles ts).tabs = v.tabs := by
  cases v; rfl

theorem withTiles_default_tab_id (v : DebugVisualizer) (ts : List (String × DebugVisualizer)) :
    (v.withTiles ts).default_tab_id = v.default_tab_id := by
  cases v; rfl

theorem withTiles_window_tiles (v : DebugVisualizer) (ts : List (String × DebugVisualizer)) :
    (v.withTiles ts).window_tiles = ts := by
  cases v; rfl

theorem set_window_title_tabs (v : DebugVisualizer) (s : String) :
    (v.set_window_title s).tabs = v.tabs := by
  cases v; rfl

theorem set_window_title_default_tab_id (v : DebugVisualizer) (s : String) :
    (v.set_window_title s).default_tab_id = v.default_tab_id := by
  cases v; rfl

theorem set_visible_tabs (v : DebugVisualizer) (b : Bool) : (v.set_visible b).tabs = v.tabs := by
  cases v; rfl

theorem set_visible_default_tab_id (v : DebugVisualizer) (b : Bool) :
    (v.set_visible b).default_tab_id = v.default_tab_id := by
  cases v; rfl

theorem clear_tabs (v : DebugVisualizer) : v.clear.tabs = v.tabs.map Tab.clear := by
  cases v; rfl

theorem clear_default_tab_id (v : DebugVisualizer) :
    v.clear.default_tab_id = v.default_tab_id := by
  cases v; rfl

/-- Claim C5: `remove_tab id` with the default tab's id returns false and
changes nothing; with any other id it returns false and changes nothing
when no tab has that id, and otherwise returns true and removes exactly
the (first) tab whose id matches, leaving every other tab, its contents
and its order untouched; the rest of the store is never modified. -/
theorem c5_remove_tab (v : DebugVisualizer) (id : String) :
    (id = v.default_tab_id → v.remove_tab id = (v, false)) ∧
    (id ≠ v.default_tab_id →
      ((∀ t ∈ v.tabs, t.id ≠ id) → v.remove_tab id = (v, false)) ∧
      (∀ (l1 : List Tab) (t : Tab) (l2 : List Tab),
        v.tabs = l1 ++ t :: l2 → t.id = id → (∀ x ∈ l1, x.id ≠ id) →
        v.remove_tab id = (v.withTabs (l1 ++ l2), true))) ∧
    (v.remove_tab id).1.window_tiles = v.window_tiles ∧
    (v.remove_tab id).1.default_tab_id = v.default_tab_id ∧
    (v.remove_tab id).1.window_title = v.window_title := by
  refine ⟨?_, ?_, ?_, ?_, ?_⟩
  · intro h
    unfold DebugVisualizer.remove_tab
    rw [if_pos h]
  · intro h
    constructor
    · intro hall
      unfold DebugVisualizer.remove_tab
      rw [if_neg h, eraseFirst_eq_none _ _ (fun t ht => by simp [hall t ht])]
    · intro l1 t l2 hdecomp ht hl1
      unfold DebugVisualizer.remove_tab
      rw [if_neg h, hdecomp,
        eraseFirst_decomp _ l1 l2 t (by simp [ht]) (fun y hy => by simp [hl1 y hy])]
  all_goals
    unfold DebugVisualizer.remove_tab
    by_cases h : id = v.default_tab_id
    · rw [if_pos h]
    · rw [if_neg h]
      cases he : eraseFirst (fun t => t.id = id) v.tabs with
      | none => rfl
      | some ts => simp [withTabs_window_tiles, withTabs_default_tab_id, withTabs_window_title]

/-- Witness for C5: on a store with tabs `overview` (default) and `a`,
removing `"a"` succeeds and leaves only the default tab. -/
theorem c5_remove_tab_witness :
    ("a" ≠ (DebugVisualizer.init.ensure_tab "a" "").default_tab_id) ∧
    (DebugVisualizer.init.ensure_tab "a" "").remove_tab "a" =
      ((DebugVisualizer.init.ensure_tab "a" "").withTabs
        ([Tab.new "overview" "overview"] ++ []), true) :=
  ⟨by decide,
    ((c5_remove_tab (DebugVisualizer.init.ensure_tab "a" "") "a").2.1 (by decide)).2
      [Tab.new "overview" "overview"] (Tab.new "a" "a") [] rfl rfl (by decide)⟩

/-- Claim C6: `ensure_tab` (behind `add_tab`, `tabs[id]`, `tabs.add`) is a
get-or-create keyed by id: when the id is absent a single new tab is
appended, titled by the id when the supplied title is empty; when the id
is present no duplicate is created, a non-empty title renames the stored
tab in place (contents kept), an empty title changes nothing, and a
mutation applied through one handle (any id-preserving tab update) is
visible through a later lookup of the same id.  The same get-or-create and
rename policy holds for `window_tile` over child stores. -/
theorem c6_tab_tile_identity (v : DebugVisualizer) (id title1 title2 : String) :
    v.add_tab id = v.ensure_tab id id ∧
    (Tab.new id "").title = id ∧
    (v.find_tab_internal id = none →
      (v.ensure_tab id title1).tabs =
        v.tabs ++ [Tab.new id (if title1 = "" then id else title1)] ∧
      (v.ensure_tab id title1).find_tab_internal id =
        some (Tab.new id (if title1 = "" then id else title1))) ∧
    (∀ t, v.find_tab_internal id = some t →
      (v.ensure_tab id title2).tabs.length = v.tabs.length ∧
      (v.ensure_tab id title2).find_tab_internal id =
        some (if title2 = "" then t else { t with title := title2 }) ∧
      (title2 = "" → v.ensure_tab id title2 = v)) ∧
    (∀ f : Tab → Tab, (∀ u, (f u).id = u.id) →
      ∀ t, v.find_tab_internal id = some t →
        (v.onTab id f).find_tab_internal id = some (f t)) ∧
    (v.find_window_tile id = none →
      (v.window_tile id title1).find_window_tile id =
        some ((DebugVisualizer.init.set_window_title
          (if title1 = "" then id else title1)).set_visible true) ∧
      (v.window_tile id title1).window_tiles.length = v.window_tiles.length + 1) ∧
    (∀ c, v.find_window_tile id = some c →
      (v.window_tile id title2).window_tiles.length = v.window_tiles.length ∧
      (v.window_tile id title2).find_window_tile id =
        some (if title2 ≠ "" ∧ c.window_title ≠ title2
          then c.set_window_title title2 else c) ∧
      (title2 = "" → v.window_tile id title2 = v)) := by
  refine ⟨rfl, by simp [Tab.new], ?_, ?_, ?_, ?_, ?_⟩
  · intro h
    simp only [DebugVisualizer.ensure_tab, h]
    refine ⟨withTabs_tabs _ _, ?_⟩
    show (_ : DebugVisualizer).tabs.find? _ = _
    rw [withTabs_tabs, find?_append_of_none _ _ _ h]
    simp [List.find?, Tab.new]
  · intro t h
    have hp : ∀ x : Tab,
        (decide ((if title2 = "" then x else x.set_title title2).id = id)) =
          decide (x.id = id) := by
      intro x
      by_cases h2 : title2 = "" <;> simp [h2, Tab.set_title]
    refine ⟨?_, ?_, ?_⟩
    · simp only [DebugVisualizer.ensure_tab, h]
      rw [withTabs_tabs, length_updateFirst]
    · simp only [DebugVisualizer.ensure_tab, h]
      show (_ : DebugVisualizer).tabs.find? _ = _
      rw [withTabs_tabs, find?_updateFirst _ _ _ hp]
      have hfind : v.tabs.find? (fun t => t.id = id) = some t := h
      rw [hfind]
      by_cases h2 : title2 = "" <;> simp [h2, Tab.set_title]
    · intro h2
      subst h2
      simp only [DebugVisualizer.ensure_tab, h]
      rw [updateFirst_eq_self _ _ _ (fun x => by simp), withTabs_self]
  · intro f hf t h
    have hp : ∀ x : Tab, (decide ((f x).id = id)) = decide (x.id = id) := by
      intro x
      simp [hf x]
    show (_ : DebugVisualizer).tabs.find? _ = _
    rw [DebugVisualizer.onTab, withTabs_tabs, find?_updateFirst _ _ _ hp]
    have hfind : v.tabs.find? (fun t => t.id = id) = some t := h
    rw [hfind]
    rfl
  · intro h
    simp only [DebugVisualizer.window_tile, h]
    constructor
    · show mapFind id (_ : DebugVisualizer).window_tiles = _
      rw [withTiles_window_tiles, mapFind_append_of_none _ _ _ h]
      simp [mapFind]
    · rw [withTiles_window_tiles, List.length_append]
      rfl
  · intro c h
    simp only [DebugVisualizer.window_tile, h]
    by_cases hcond : title2 ≠ "" ∧ c.window_title ≠ title2
    · rw [if_pos hcond]
      refine ⟨?_, ?_, ?_⟩
      · rw [withTiles_window_tiles, length_updateFirst]
      · show mapFind id (_ : DebugVisualizer).window_tiles = _
        rw [withTiles_window_tiles,
          mapFind_updateFirst id (fun x : DebugVisualizer => x.set_window_title title2)
            v.window_tiles]
        have h' : mapFind id v.window_tiles = some c := h
        rw [h', if_pos hcond]
        rfl
      · intro h2
        exact absurd h2 hcond.1
    · rw [if_neg hcond]
      exact ⟨rfl, by rw [h, if_neg hcond], fun _ => rfl⟩

/-- Witness for C6: renaming the existing `overview` tab in place, and
creating the `ai` window tile with title `AI Debug`. -/
theorem c6_tab_tile_identity_witness :
    DebugVisualizer.init.find_tab_internal "overview" = some (Tab.new "overview" "overview") ∧
    (DebugVisualizer.init.ensure_tab "overview" "New").find_tab_internal "overview" =
      some (if ("New" : String) = "" then Tab.new "overview" "overview"
        else { Tab.new "overview" "overview" with title := "New" }) ∧
    DebugVisualizer.init.find_window_tile "ai" = none ∧
    (DebugVisualizer.init.window_tile "ai" "AI Debug").find_window_tile "ai" =
      some ((DebugVisualizer.init.set_window_title
        (if ("AI Debug" : String) = "" then "ai" else "AI Debug")).set_visible true) :=
  ⟨rfl,
    ((c6_tab_tile_identity DebugVisualizer.init "overview" "" "New").2.2.2.1
        (Tab.new "overview" "overview") rfl).2.1,
    rfl,
    ((c6_tab_tile_identity DebugVisualizer.init "ai" "AI Debug" "").2.2.2.2.2.1 rfl).1⟩

/-! ## Invariant preservation for C7 -/

theorem Tab.set_title_id (t : Tab) (s : String) : (t.set_title s).id = t.id := by
  unfold Tab.set_title
  by_cases h : s = "" <;> simp [h]

theorem Tab.ensure_graph_id (t : Tab) (key : String) (cfg : GraphConfig) :
    (t.ensure_graph key cfg).id = t.id := by
  unfold Tab.ensure_graph
  cases mapFind key t.graphs with
  | none => rfl
  | some g => by_cases hd : configDiffers g.config cfg <;> simp [hd]

theorem Tab.applyTabOp_id (t : Tab) (op : TabOp) : (t.applyTabOp op).id = t.id := by
  cases op with
  | setTitle s => exact Tab.set_title_id t s
  | updateValue key v => rfl
  | ensureGraph key cfg => exact Tab.ensure_graph_id t key cfg
  | graphBracket key =>
    show (t.graphBracket key).id = t.id
    unfold Tab.graphBracket
    cases mapFind key t.graphs <;> rfl
  | pushGraphSample key s cfg =>
    show ({ t.ensure_graph key cfg with graphs := _ } : Tab).id = t.id
    exact Tab.ensure_graph_id t key cfg
  | addGraphSamples key ss cfg =>
    show ({ t.ensure_graph key cfg with graphs := _ } : Tab).id = t.id
    exact Tab.ensure_graph_id t key cfg
  | updateStructure key b => rfl
  | clearTab => rfl

theorem ensure_tab_default_tab_id (v : DebugVisualizer) (id title : String) :
    (v.ensure_tab id title).default_tab_id = v.default_tab_id := by
  unfold DebugVisualizer.ensure_tab
  cases v.find_tab_internal id <;> exact withTabs_default_tab_id _ _

theorem ensure_tab_hasDefaultTab (v : DebugVisualizer) (id title : String)
    (h : hasDefaultTab v) : hasDefaultTab (v.ensure_tab id title) := by
  obtain ⟨t, ht, hid⟩ := h
  unfold hasDefaultTab
  rw [ensure_tab_default_tab_id]
  unfold DebugVisualizer.ensure_tab
  cases v.find_tab_internal id with
  | none =>
    rw [withTabs_tabs]
    exact ⟨t, List.mem_append_left _ ht, hid⟩
  | some u =>
    rw [withTabs_tabs]
    exact exists_mem_updateFirst _ _ _ _
      (fun x hx => by
        by_cases he : title = "" <;> simp [he, Tab.set_title_id, hx])
      ⟨t, ht, hid⟩

theorem window_tile_frame (v : DebugVisualizer) (id title : String) :
    (v.window_tile id title).tabs = v.tabs ∧
    (v.window_tile id title).default_tab_id = v.default_tab_id := by
  unfold DebugVisualizer.window_tile
  split
  · split
    · exact ⟨withTiles_tabs _ _, withTiles_default_tab_id _ _⟩
    · exact ⟨rfl, rfl⟩
  · exact ⟨withTiles_tabs _ _, withTiles_default_tab_id _ _⟩

theorem remove_window_tile_frame (v : DebugVisualizer) (id : String) :
    (v.remove_window_tile id).1.tabs = v.tabs ∧
    (v.remove_window_tile id).1.default_tab_id = v.default_tab_id := by
  unfold DebugVisualizer.remove_window_tile
  split
  · exact ⟨rfl, rfl⟩
  · exact ⟨withTiles_tabs _ _, withTiles_default_tab_id _ _⟩

theorem applyStoreOp_hasDefaultTab (v : DebugVisualizer) (op : StoreOp)
    (h : hasDefaultTab v) : hasDefaultTab (v.applyStoreOp op) := by
  obtain ⟨t, ht, hid⟩ := h
  cases op with
  | ensureTab id title => exact ensure_tab_hasDefaultTab v id title ⟨t, ht, hid⟩
  | removeTab id =>
    show hasDefaultTab (v.remove_tab id).1
    unfold DebugVisualizer.remove_tab
    by_cases hd : id = v.default_tab_id
    · rw [if_pos hd]
      exact ⟨t, ht, hid⟩
    · rw [if_neg hd]
      cases he : eraseFirst (fun t => t.id = id) v.tabs with
      | none => exact ⟨t, ht, hid⟩
      | some ts =>
        refine ⟨t, ?_, ?_⟩
        · show t ∈ (v.withTabs ts).tabs
          rw [withTabs_tabs]
          exact mem_of_eraseFirst _ _ _ _ he ht
            (decide_eq_false (fun hh => hd (hh.symm.trans hid)))
        · show t.id = (v.withTabs ts).default_tab_id
          rw [withTabs_default_tab_id]
          exact hid
  | clearAll =>
    show hasDefaultTab v.clear
    refine ⟨Tab.clear t, ?_, ?_⟩
    · rw [clear_tabs]
      exact List.mem_map_of_mem _ ht
    · rw [clear_default_tab_id]
      exact hid
  | windowTile id title =>
    show hasDefaultTab (v.window_tile id title)
    obtain ⟨h1, h2⟩ := window_tile_frame v id title
    refine ⟨t, ?_, ?_⟩
    · rw [h1]; exact ht
    · rw [h2]; exact hid
  | removeWindowTile id =>
    show hasDefaultTab (v.remove_window_tile id).1
    obtain ⟨h1, h2⟩ := remove_window_tile_frame v id
    refine ⟨t, ?_, ?_⟩
    · rw [h1]; exact ht
    · rw [h2]; exact hid
  | setWindowTitle s =>
    show hasDefaultTab (v.set_window_title s)
    refine ⟨t, ?_, ?_⟩
    · rw [set_window_title_tabs]; exact ht
    · rw [set_window_title_default_tab_id]; exact hid
  | setVisible b =>
    show hasDefaultTab (v.set_visible b)
    refine ⟨t, ?_, ?_⟩
    · rw [set_visible_tabs]; exact ht
    · rw [set_visible_default_tab_id]; exact hid
  | defaultTab => exact ensure_tab_hasDefaultTab v v.default_tab_id "" ⟨t, ht, hid⟩
  | onTab id top =>
    show hasDefaultTab (v.onTab id _)
    unfold DebugVisualizer.onTab hasDefaultTab
    rw [withTabs_tabs, withTabs_default_tab_id]
    exact exists_mem_updateFirst _ _ _ _
      (fun x hx => by rw [Tab.applyTabOp_id]; exact hx) ⟨t, ht, hid⟩

/-- Claim C7: in every store state reachable from construction by any
sequence of public operations, a tab whose id equals the store's default
tab id is present in the tab sequence (and hence in `tab_ids`): the
constructor creates it, `remove_tab` refuses to remove it, and no
operation — including `clear`, which empties content but removes no tab —
ever deletes it. -/
theorem c7_default_tab_always_exists (v : DebugVisualizer) (h : Reachable v) :
    hasDefaultTab v ∧ v.default_tab_id ∈ v.tab_ids := by
  have hmain : hasDefaultTab v := by
    induction h with
    | init =>
      exact ⟨Tab.new "overview" "overview",
        by rw [show DebugVisualizer.init.tabs = [Tab.new "overview" "overview"] from rfl]
           exact List.mem_singleton.mpr rfl,
        rfl⟩
    | step op hr ih => exact applyStoreOp_hasDefaultTab _ op ih
  obtain ⟨t, ht, hid⟩ := hmain
  exact ⟨⟨t, ht, hid⟩, hid ▸ List.mem_map_of_mem Tab.id ht⟩

/-- Witness for C7: after adding tab `a` and then attempting to remove the
default tab, the default tab is still present. -/
theorem c7_default_tab_always_exists_witness :
    hasDefaultTab
      ((DebugVisualizer.init.applyStoreOp (StoreOp.ensureTab "a" "A")).applyStoreOp
        (StoreOp.removeTab "overview")) :=
  (c7_default_tab_always_exists _
      (Reachable.step (StoreOp.removeTab "overview")
        (Reachable.step (StoreOp.ensureTab "a" "A") Reachable.init))).1

end Dbgvis
